import Mathlib

/-!
# Verification of the ply-rs PLY format engine

A shallow embedding, in Lean 4, of the core of the `ply-rs` crate
(header grammar, header parser, ASCII and binary payload codecs, the
ordered name-keyed map and the default element representation), together
with theorems settling a fixed list of claims about it.

Conventions of the embedding:
* Rust machine integers are modelled as `Int`/`Nat`; two's-complement
  reinterpretation of bytes is written out explicitly.
* `f32`/`f64` values are carried symbolically (`F32`/`F64`): either the raw
  bit pattern read from a binary stream, or the ASCII token they were parsed
  from.  The engine under verification performs no floating-point arithmetic
  and never converts between the two representations, so this is faithful
  for every property proved here.
* Byte streams are `List Nat` (each entry one byte); text streams are lists
  of the line strings that `BufRead::read_line` would produce.
* Fallible Rust functions returning `PlyResult<T>` become
  `Except PlyError T`; readers additionally return the remaining stream.
* Debug renderings (`{:?}`) of nested errors inside rewrapped error
  messages are abbreviated where the exact Rust `derive(Debug)` output is
  immaterial; renderings that feed claim-relevant messages mirror the
  source format strings exactly.
-/

deriving instance DecidableEq for Except

namespace PlyRs

/-! ## Data model (src/ply/property.rs, src/ply/ply_data_structure.rs) -/

/-- `ScalarType`: the 8 primitive numeric kinds. -/
inductive ScalarType where
  | char | uchar | short | ushort | int | uint | float | double
deriving DecidableEq, Repr

/-- `PropertyType`: scalar or list (index type, element type). -/
inductive PropertyType where
  | scalar (t : ScalarType)
  | list (indexType : ScalarType) (elemType : ScalarType)
deriving DecidableEq, Repr

/-- A symbolic `f32` value: a raw bit pattern (from binary decoding) or the
ASCII token it was parsed from.  No arithmetic is ever performed on it. -/
inductive F32 where
  | bits (n : Nat)
  | ofToken (s : String)
deriving DecidableEq, Repr

/-- A symbolic `f64` value, as `F32`. -/
inductive F64 where
  | bits (n : Nat)
  | ofToken (s : String)
deriving DecidableEq, Repr

/-- `Property`: the 16-variant tagged wire value. -/
inductive Property where
  | char (v : Int)
  | uchar (v : Nat)
  | short (v : Int)
  | ushort (v : Nat)
  | int (v : Int)
  | uint (v : Nat)
  | float (v : F32)
  | double (v : F64)
  | listChar (v : List Int)
  | listUChar (v : List Nat)
  | listShort (v : List Int)
  | listUShort (v : List Nat)
  | listInt (v : List Int)
  | listUInt (v : List Nat)
  | listFloat (v : List F32)
  | listDouble (v : List F64)
deriving DecidableEq, Repr

/-! ## Ordered name-keyed map (src/ply/key_map.rs)

`KeyMap<V>` is `indexmap::IndexMap<String, V>`: keyed lookup plus
insertion-order iteration.  We embed it as an association list whose
entry order is the iteration order; `mapInsert` mirrors
`IndexMap::insert` (an existing key keeps its position and key and only
has its value replaced; a fresh key is appended), `mapPop` mirrors
`IndexMap::pop` (removes the last entry). -/

/-- The ordered name-keyed map: entry order is iteration order. -/
abbrev KeyMap (V : Type) : Type := List (String × V)

namespace KeyMap

/-- `IndexMap::new()`. -/
def empty {V : Type} : KeyMap V := []

/-- `IndexMap::insert`: replace in place if the key exists, else append. -/
def mapInsert {V : Type} : KeyMap V → String → V → KeyMap V
  | [], k, v => [(k, v)]
  | (k', v') :: rest, k, v =>
    if k' = k then (k', v) :: rest else (k', v') :: mapInsert rest k v

/-- `IndexMap::get` (by key). -/
def mapLookup {V : Type} : KeyMap V → String → Option V
  | [], _ => none
  | (k', v') :: rest, k => if k' = k then some v' else mapLookup rest k

/-- `IndexMap::pop`: remove and return the last entry. -/
def mapPop {V : Type} (m : KeyMap V) : Option ((String × V) × KeyMap V) :=
  match m.getLast? with
  | none => none
  | some e => some (e, m.dropLast)

/-- `IndexMap::is_empty`. -/
def mapIsEmpty {V : Type} (m : KeyMap V) : Bool := m.isEmpty

/-- Iteration-order key list. -/
def keys {V : Type} (m : KeyMap V) : List String := m.map Prod.fst

end KeyMap

export KeyMap (mapInsert mapLookup mapPop mapIsEmpty)

/-- The `Key` trait: a value that provides its own storage key. -/
class Key (V : Type) where
  getKey : V → String

/-- `Addable::add`: store a value under its own key. -/
def add {V : Type} [Key V] (m : KeyMap V) (v : V) : KeyMap V :=
  mapInsert m (Key.getKey v) v

/-! ## Header structures (src/ply/ply_data_structure.rs) -/

/-- Payload `Encoding`. -/
inductive Encoding where
  | ascii | binaryBigEndian | binaryLittleEndian
deriving DecidableEq, Repr

/-- `Version { major: u16, minor: u8 }`. -/
structure Version where
  major : Nat
  minor : Nat
deriving DecidableEq, Repr

/-- `PropertyDef { name, data_type }`. -/
structure PropertyDef where
  name : String
  dataType : PropertyType
deriving DecidableEq, Repr

instance : Key PropertyDef := ⟨PropertyDef.name⟩

/-- `ElementDef { name, count, properties }`. -/
structure ElementDef where
  name : String
  count : Nat
  properties : KeyMap PropertyDef
deriving DecidableEq

instance : Key ElementDef := ⟨ElementDef.name⟩

/-- `ElementDef::new`: zero count, no properties. -/
def ElementDef.mk' (name : String) : ElementDef :=
  { name := name, count := 0, properties := KeyMap.empty }

/-- The PLY `Header`. -/
structure Header where
  encoding : Encoding
  version : Version
  objInfos : List String
  elements : KeyMap ElementDef
  comments : List String
deriving DecidableEq

/-! ## Errors (src/errors.rs) -/

/-- `std::io::ErrorKind` values used by the engine. -/
inductive IoErrorKind where
  | unexpectedEof | invalidInput
deriving DecidableEq, Repr

/-- `PlyError`: the closed error taxonomy. -/
inductive PlyError where
  | io (kind : IoErrorKind) (msg : String)
  | parse (msg : String)
  | inconsistent (msg : String)
  | serialize (msg : String)
deriving DecidableEq, Repr

/-- The category (constructor) of a `PlyError`, forgetting the message. -/
inductive ErrCat where
  | io | parse | inconsistent | serialize
deriving DecidableEq, Repr

/-- Map an error to its category. -/
def PlyError.category : PlyError → ErrCat
  | .io _ _ => .io
  | .parse _ => .parse
  | .inconsistent _ => .inconsistent
  | .serialize _ => .serialize

/-! ## Default element representation (src/ply/default_element.rs)

`DefaultElement = KeyMap<Property>`; the setter inserts unconditionally,
each getter matches the stored tag exactly and returns `none` on any
mismatch. -/

/-- `DefaultElement`. -/
abbrev DefaultElement : Type := KeyMap Property

namespace DefaultElement

/-- `PropertyAccess::new` for `DefaultElement`. -/
def new : DefaultElement := KeyMap.empty

/-- `set_property`: unconditional insert. -/
def setProperty (m : DefaultElement) (key : String) (p : Property) : DefaultElement :=
  mapInsert m key p

/-- `get_char`. -/
def getChar (m : DefaultElement) (key : String) : Option Int :=
  match mapLookup m key with
  | some (.char x) => some x
  | _ => none

/-- `get_uchar`. -/
def getUChar (m : DefaultElement) (key : String) : Option Nat :=
  match mapLookup m key with
  | some (.uchar x) => some x
  | _ => none

/-- `get_short`. -/
def getShort (m : DefaultElement) (key : String) : Option Int :=
  match mapLookup m key with
  | some (.short x) => some x
  | _ => none

/-- `get_ushort`. -/
def getUShort (m : DefaultElement) (key : String) : Option Nat :=
  match mapLookup m key with
  | some (.ushort x) => some x
  | _ => none

/-- `get_int`. -/
def getInt (m : DefaultElement) (key : String) : Option Int :=
  match mapLookup m key with
  | some (.int x) => some x
  | _ => none

/-- `get_uint`. -/
def getUInt (m : DefaultElement) (key : String) : Option Nat :=
  match mapLookup m key with
  | some (.uint x) => some x
  | _ => none

/-- `get_float`. -/
def getFloat (m : DefaultElement) (key : String) : Option F32 :=
  match mapLookup m key with
  | some (.float x) => some x
  | _ => none

/-- `get_double`. -/
def getDouble (m : DefaultElement) (key : String) : Option F64 :=
  match mapLookup m key with
  | some (.double x) => some x
  | _ => none

/-- `get_list_char`. -/
def getListChar (m : DefaultElement) (key : String) : Option (List Int) :=
  match mapLookup m key with
  | some (.listChar x) => some x
  | _ => none

/-- `get_list_uchar`. -/
def getListUChar (m : DefaultElement) (key : String) : Option (List Nat) :=
  match mapLookup m key with
  | some (.listUChar x) => some x
  | _ => none

/-- `get_list_short`. -/
def getListShort (m : DefaultElement) (key : String) : Option (List Int) :=
  match mapLookup m key with
  | some (.listShort x) => some x
  | _ => none

/-- `get_list_ushort`. -/
def getListUShort (m : DefaultElement) (key : String) : Option (List Nat) :=
  match mapLookup m key with
  | some (.listUShort x) => some x
  | _ => none

/-- `get_list_int`. -/
def getListInt (m : DefaultElement) (key : String) : Option (List Int) :=
  match mapLookup m key with
  | some (.listInt x) => some x
  | _ => none

/-- `get_list_uint`. -/
def getListUInt (m : DefaultElement) (key : String) : Option (List Nat) :=
  match mapLookup m key with
  | some (.listUInt x) => some x
  | _ => none

/-- `get_list_float`. -/
def getListFloat (m : DefaultElement) (key : String) : Option (List F32) :=
  match mapLookup m key with
  | some (.listFloat x) => some x
  | _ => none

/-- `get_list_double`. -/
def getListDouble (m : DefaultElement) (key : String) : Option (List F64) :=
  match mapLookup m key with
  | some (.listDouble x) => some x
  | _ => none

end DefaultElement

/-! ## Header grammar (src/parser/ply_grammar.rs)

The source grammar is a rust-peg PEG: ordered committed choice (once an
alternative succeeds the choice never reconsiders it), greedy repetition,
and a top-level rule that must consume the entire input.  Each rule below
is a function `List Char → Option (result × List Char)` returning the
remaining input; `none` is a parse failure. -/

/-- A single parsed header line (`Line` in ply_grammar.rs). -/
inductive Line where
  | magicNumber
  | format (v : Encoding × Option Version)
  | comment (c : String)
  | objInfo (o : String)
  | element (e : Option ElementDef)
  | property (p : PropertyDef)
  | endHeader
deriving DecidableEq

/-- Match a literal string, returning the rest. -/
def pLit : List Char → List Char → Option (List Char)
  | [], s => some s
  | _ :: _, [] => none
  | c :: cs, d :: ds => if d = c then pLit cs ds else none

/-- `space()` character class: space or tab. -/
def isSpaceChar (c : Char) : Bool := c = ' ' || c = '\t'

/-- `space() = [' '|'\t']+`, greedy. -/
def pSpace : List Char → Option (List Char)
  | [] => none
  | c :: rest =>
    if isSpaceChar c then some (rest.dropWhile isSpaceChar) else none

/-- `space()?`, greedy. -/
def pSpaceOpt (s : List Char) : List Char := s.dropWhile isSpaceChar

/-- Value of a digit run. -/
def digitsToNat (ds : List Char) : Nat :=
  ds.foldl (fun a c => a * 10 + (c.toNat - '0'.toNat)) 0

/-- `['0'..='9']+`, greedy: the digit run and the rest. -/
def pDigits (s : List Char) : Option (List Char × List Char) :=
  let p := s.span (·.isDigit)
  if p.1.isEmpty then none else some p

/-- `uint()`: a digit run whose semantic value is `n.parse::<u64>().ok()`. -/
def pUint (s : List Char) : Option (Option Nat × List Char) :=
  (pDigits s).map fun (ds, r) =>
    (let n := digitsToNat ds; if n < 2 ^ 64 then some n else none, r)

/-- `ident()` continuation characters. -/
def isIdentCont (c : Char) : Bool := c.isAlpha || c.isDigit || c = '_' || c = '-'

/-- `ident()`. -/
def pIdent : List Char → Option (String × List Char)
  | [] => none
  | c :: rest =>
    if c.isAlpha || c = '_' then
      let p := rest.span isIdentCont
      some ((c :: p.1).asString, p.2)
    else none

/-- `text() = (!['\n'|'\r'][_])+`, greedy. -/
def pText (s : List Char) : Option (String × List Char) :=
  let p := s.span (fun c => !(c = '\n' || c = '\r'))
  if p.1.isEmpty then none else some (p.1.asString, p.2)

/-- `line_break() = "\r\n" / ['\n'|'\r']`. -/
def pLineBreak : List Char → Option (List Char)
  | '\r' :: '\n' :: rest => some rest
  | '\n' :: rest => some rest
  | '\r' :: rest => some rest
  | _ => none

/-- `line_break()?`. -/
def pLineBreakOpt (s : List Char) : List Char := (pLineBreak s).getD s

/-- `scalar()`: the keyword alternatives in source order. -/
def pScalar (s : List Char) : Option (ScalarType × List Char) :=
  (pLit "char".data s).map (fun r => (ScalarType.char, r)) <|>
  (pLit "int8".data s).map (fun r => (ScalarType.char, r)) <|>
  (pLit "uchar".data s).map (fun r => (ScalarType.uchar, r)) <|>
  (pLit "uint8".data s).map (fun r => (ScalarType.uchar, r)) <|>
  (pLit "short".data s).map (fun r => (ScalarType.short, r)) <|>
  (pLit "int16".data s).map (fun r => (ScalarType.short, r)) <|>
  (pLit "uint16".data s).map (fun r => (ScalarType.ushort, r)) <|>
  (pLit "ushort".data s).map (fun r => (ScalarType.ushort, r)) <|>
  (pLit "int32".data s).map (fun r => (ScalarType.int, r)) <|>
  (pLit "int".data s).map (fun r => (ScalarType.int, r)) <|>
  (pLit "uint32".data s).map (fun r => (ScalarType.uint, r)) <|>
  (pLit "uint".data s).map (fun r => (ScalarType.uint, r)) <|>
  (pLit "float32".data s).map (fun r => (ScalarType.float, r)) <|>
  (pLit "float64".data s).map (fun r => (ScalarType.double, r)) <|>
  (pLit "float".data s).map (fun r => (ScalarType.float, r)) <|>
  (pLit "double".data s).map (fun r => (ScalarType.double, r))

/-- `data_type() = scalar / "list" space scalar space scalar`. -/
def pDataType (s : List Char) : Option (PropertyType × List Char) :=
  ((pScalar s).map fun (t, r) => (PropertyType.scalar t, r)) <|>
  (do
    let r ← pLit "list".data s
    let r ← pSpace r
    let (it, r) ← pScalar r
    let r ← pSpace r
    let (t, r) ← pScalar r
    some (PropertyType.list it t, r))

/-- `version()`: `maj:uint() "." min:uint()` with semantic value
`u16::try_from(maj?)` / `u8::try_from(min?)`; overflow yields `none`
while the rule itself still succeeds. -/
def pVersion (s : List Char) : Option (Option Version × List Char) := do
  let (mds, r) ← pDigits s
  let r ← pLit ".".data r
  let (nds, r) ← pDigits r
  let sem : Option Version := do
    let maj ← (if digitsToNat mds < 2 ^ 64 then some (digitsToNat mds) else none)
    let mn ← (if digitsToNat nds < 2 ^ 64 then some (digitsToNat nds) else none)
    if maj < 2 ^ 16 then
      if mn < 2 ^ 8 then some ⟨maj, mn⟩ else none
    else none
  some (sem, r)

/-- `format()`: the three encoding alternatives in source order. -/
def pFormat (s : List Char) : Option ((Encoding × Option Version) × List Char) :=
  (do
    let r ← pLit "format".data s
    let r ← pSpace r
    let r ← pLit "ascii".data r
    let r ← pSpace r
    let (v, r) ← pVersion r
    some ((Encoding.ascii, v), r)) <|>
  (do
    let r ← pLit "format".data s
    let r ← pSpace r
    let r ← pLit "binary_big_endian".data r
    let r ← pSpace r
    let (v, r) ← pVersion r
    some ((Encoding.binaryBigEndian, v), r)) <|>
  (do
    let r ← pLit "format".data s
    let r ← pSpace r
    let r ← pLit "binary_little_endian".data r
    let r ← pSpace r
    let (v, r) ← pVersion r
    some ((Encoding.binaryLittleEndian, v), r))

/-- `comment()`. -/
def pComment (s : List Char) : Option (String × List Char) :=
  (do
    let r ← pLit "comment".data s
    let r ← pSpace r
    let (c, r) ← pText r
    some (c, r)) <|>
  (do
    let r ← pLit "comment".data s
    some ("", pSpaceOpt r))

/-- `obj_info()`. -/
def pObjInfo (s : List Char) : Option (String × List Char) :=
  (do
    let r ← pLit "obj_info".data s
    let r ← pSpace r
    let (c, r) ← pText r
    some (c, r)) <|>
  (do
    let r ← pLit "obj_info".data s
    some ("", pSpaceOpt r))

/-- `element()`: `ElementDef::new(id)` with
`count = usize::try_from(n?).ok()?` (on the 64-bit host any `u64` fits). -/
def pElement (s : List Char) : Option (Option ElementDef × List Char) := do
  let r ← pLit "element".data s
  let r ← pSpace r
  let (id, r) ← pIdent r
  let r ← pSpace r
  let (n, r) ← pUint r
  let sem : Option ElementDef := do
    let n ← n
    some { ElementDef.mk' id with count := n }
  some (sem, r)

/-- `property()`. -/
def pProperty (s : List Char) : Option (PropertyDef × List Char) := do
  let r ← pLit "property".data s
  let r ← pSpace r
  let (dt, r) ← pDataType r
  let r ← pSpace r
  let (id, r) ← pIdent r
  some (⟨id, dt⟩, r)

/-- `trimmed_line()`: the seven alternatives in source order. -/
def pTrimmedLine (s : List Char) : Option (Line × List Char) :=
  ((pLit "ply".data s).map fun r => (Line.magicNumber, r)) <|>
  ((pLit "end_header".data s).map fun r => (Line.endHeader, r)) <|>
  ((pFormat s).map fun (v, r) => (Line.format v, r)) <|>
  ((pObjInfo s).map fun (o, r) => (Line.objInfo o, r)) <|>
  ((pComment s).map fun (c, r) => (Line.comment c, r)) <|>
  ((pElement s).map fun (e, r) => (Line.element e, r)) <|>
  ((pProperty s).map fun (p, r) => (Line.property p, r))

/-- `grammar::line`: `trimmed_line space()? line_break()?`, whole input. -/
def parseLine (s : String) : Option Line := do
  let (l, r) ← pTrimmedLine s.data
  let r := pSpaceOpt r
  let r := pLineBreakOpt r
  if r.isEmpty then some l else none

/-- `any_number()`:
`['-'|'+']? ['0'..='9']+ ("." ['0'..='9']+)? (['e'|'E'] ['-'|'+']? ['0'..='9']+)?`,
returning the matched slice.  Failed optional groups consume nothing. -/
def pAnyNumber (s : List Char) : Option (String × List Char) :=
  let (sgn, r1) : List Char × List Char :=
    match s with
    | c :: rest => if c = '-' || c = '+' then ([c], rest) else (([] : List Char), s)
    | [] => ([], s)
  let (ds, r2) := r1.span (·.isDigit)
  if ds.isEmpty then none
  else
    let (frac, r3) : List Char × List Char :=
      match r2 with
      | '.' :: r =>
        let p := r.span (·.isDigit)
        if p.1.isEmpty then (([] : List Char), r2) else ('.' :: p.1, p.2)
      | _ => ([], r2)
    let (ex, r4) : List Char × List Char :=
      match r3 with
      | c :: r =>
        if c = 'e' || c = 'E' then
          match r with
          | c2 :: r' =>
            if c2 = '-' || c2 = '+' then
              let p := r'.span (·.isDigit)
              if p.1.isEmpty then (([] : List Char), r3) else (c :: c2 :: p.1, p.2)
            else
              let p := r.span (·.isDigit)
              if p.1.isEmpty then (([] : List Char), r3) else (c :: p.1, p.2)
          | [] => ([], r3)
        else ([], r3)
      | [] => ([], r3)
    some ((sgn ++ ds ++ frac ++ ex).asString, r4)

/-- Continuation of `any_number() ** space()`: repeatedly a separator then an
item, restoring the position over the separator when the item fails.  `fuel`
bounds the iteration count; each successful step consumes at least one
character, so `fuel = s.length` is always enough. -/
def pMoreNumbers : Nat → List Char → (List String × List Char)
  | 0, s => ([], s)
  | fuel + 1, s =>
    match pSpace s with
    | none => ([], s)
    | some r =>
      match pAnyNumber r with
      | none => ([], s)
      | some (t, r') =>
        let p := pMoreNumbers fuel r'
        (t :: p.1, p.2)

/-- `trimmed_data_line() = any_number() ** space()` (zero or more). -/
def pTrimmedDataLine (s : List Char) : (List String × List Char) :=
  match pAnyNumber s with
  | none => ([], s)
  | some (t, r) =>
    let p := pMoreNumbers r.length r
    (t :: p.1, p.2)

/-- `grammar::data_line`: `space()? trimmed_data_line space()? line_break()?`,
whole input. -/
def dataLine (s : String) : Option (List String) :=
  let r := pSpaceOpt s.data
  let (toks, r) := pTrimmedDataLine r
  let r := pSpaceOpt r
  let r := pLineBreakOpt r
  if r.isEmpty then some toks else none

/-! ## Rust numeric `FromStr` (std library semantics used by the parser)

`<iN>::from_str` / `<uN>::from_str`: an optional single sign (`-` only for
signed types), then one or more decimal digits; anything else or an
out-of-range value is an error. -/

/-- A nonempty all-digit run and its value, else `none`. -/
def digitsCore (cs : List Char) : Option Nat :=
  if cs.isEmpty then none
  else if cs.all (·.isDigit) then some (digitsToNat cs) else none

/-- `<uN>::from_str` with exclusive upper bound `bound = 2^N`. -/
def rustParseUnsigned (bound : Nat) (s : String) : Option Nat :=
  match s.data with
  | '+' :: rest => (digitsCore rest).bind fun n => if n < bound then some n else none
  | cs => (digitsCore cs).bind fun n => if n < bound then some n else none

/-- `<iN>::from_str` with `bound = 2^(N-1)`: range `[-bound, bound)`. -/
def rustParseSigned (bound : Nat) (s : String) : Option Int :=
  match s.data with
  | '+' :: rest => (digitsCore rest).bind fun n => if n < bound then some (n : Int) else none
  | '-' :: rest => (digitsCore rest).bind fun n => if n ≤ bound then some (-(n : Int)) else none
  | cs => (digitsCore cs).bind fun n => if n < bound then some (n : Int) else none

/-- Exponent part of the Rust float literal grammar: `([eE] [+-]? Digits)?`,
must consume the whole remaining input. -/
def rustFloatExp : List Char → Bool
  | [] => true
  | c :: r =>
    (c = 'e' || c = 'E') &&
    (match r with
     | c2 :: r2 =>
       if c2 = '+' || c2 = '-' then
         let p := r2.span (·.isDigit)
         !p.1.isEmpty && p.2.isEmpty
       else
         let p := r.span (·.isDigit)
         !p.1.isEmpty && p.2.isEmpty
     | [] => false)

/-- Body of the Rust float literal grammar after the optional sign:
`'inf' | 'infinity' | 'nan' | Significand Exp?` where
`Significand ::= Digits '.'? Digits? | '.' Digits` (keywords case-insensitive). -/
def rustFloatBody (cs : List Char) : Bool :=
  let lower := cs.map Char.toLower
  if lower = "inf".data || lower = "infinity".data || lower = "nan".data then true
  else
    let (ds, r) := cs.span (·.isDigit)
    if ds.isEmpty then
      match r with
      | '.' :: r2 =>
        let p := r2.span (·.isDigit)
        !p.1.isEmpty && rustFloatExp p.2
      | _ => false
    else
      match r with
      | '.' :: r2 =>
        let p := r2.span (·.isDigit)
        rustFloatExp p.2
      | _ => rustFloatExp r

/-- The Rust float literal grammar accepted by `f32`/`f64` `from_str`. -/
def isRustFloatToken (s : String) : Bool :=
  match s.data with
  | '+' :: rest => rustFloatBody rest
  | '-' :: rest => rustFloatBody rest
  | cs => rustFloatBody cs

/-- `f32::from_str`, carried symbolically (never fails on a token the
grammar accepted; the engine performs no float arithmetic). -/
def rustParseF32 (s : String) : Option F32 :=
  if isRustFloatToken s then some (.ofToken s) else none

/-- `f64::from_str`, carried symbolically. -/
def rustParseF64 (s : String) : Option F64 :=
  if isRustFloatToken s then some (.ofToken s) else none

/-! ## Debug renderings used inside error messages

These mirror the Rust `derive(Debug)` output where an error message embeds
`{:?}` of a value.  Nested *error* values (`{:?}` of a `PlyError` or of a
library error) are abbreviated to `"ParseError"`; no claim depends on those
nested renderings. -/

/-- `derive(Debug)` for `ScalarType`. -/
def ScalarType.debug : ScalarType → String
  | .char => "Char"
  | .uchar => "UChar"
  | .short => "Short"
  | .ushort => "UShort"
  | .int => "Int"
  | .uint => "UInt"
  | .float => "Float"
  | .double => "Double"

/-- `derive(Debug)` for `PropertyType`. -/
def PropertyType.debug : PropertyType → String
  | .scalar t => "Scalar(" ++ t.debug ++ ")"
  | .list i t => "List(" ++ i.debug ++ ", " ++ t.debug ++ ")"

/-- `derive(Debug)` for `PropertyDef`. -/
def PropertyDef.debug (p : PropertyDef) : String :=
  "PropertyDef \x7b name: \"" ++ p.name ++ "\", data_type: " ++ p.dataType.debug ++ " \x7d"

/-! ## ASCII payload decoding (src/parser/mod.rs, `# Ascii`) -/

/-- Message built by the `parse` helper on a `FromStr` failure
(`"Parse error.\n\tValue: '{}'\n\tError: {:?}, "`; the library error's
debug rendering is abbreviated). -/
def parseErrMsg (s : String) : String :=
  "Parse error.\n\tValue: '" ++ s ++ "'\n\tError: ParseError, "

/-- `__read_ascii_list`, generalized over the per-token parser.  `count` is
the total expected length (for the error message), the second `Nat` the
number of elements still to read, the third the current index. -/
def readAsciiListAux {α : Type} (pf : String → Option α) (count : Nat) :
    Nat → Nat → List String → Except PlyError (List α × List String)
  | 0, _, toks => .ok ([], toks)
  | rem + 1, i, toks =>
    match toks with
    | [] =>
      .error (.parse ("Expected " ++ toString count ++ " list elements, but found only "
        ++ toString i ++ "."))
    | s :: rest =>
      match pf s with
      | none =>
        .error (.parse ("Couldn't parse element at index " ++ toString i ++ ": ParseError"))
      | some v =>
        match readAsciiListAux pf count rem (i + 1) rest with
        | .error e => .error e
        | .ok (vs, r) => .ok (v :: vs, r)

/-- `__read_ascii_list`. -/
def readAsciiList {α : Type} (pf : String → Option α) (count : Nat)
    (toks : List String) : Except PlyError (List α × List String) :=
  readAsciiListAux pf count count 0 toks

/-- `__read_ascii_property`: decode one property from the token stream.
Scalars parse via the per-kind `FromStr`; a list first parses its count as
`usize`, ignoring the declared index type. -/
def readAsciiProperty (toks : List String) (dataType : PropertyType) :
    Except PlyError (Property × List String) :=
  match toks with
  | [] =>
    .error (.parse ("Expected element of type '" ++ dataType.debug ++ "', but found nothing."))
  | s :: rest =>
    match dataType with
    | .scalar st =>
      match st with
      | .char =>
        match rustParseSigned (2 ^ 7) s with
        | some v => .ok (.char v, rest)
        | none => .error (.parse (parseErrMsg s))
      | .uchar =>
        match rustParseUnsigned (2 ^ 8) s with
        | some v => .ok (.uchar v, rest)
        | none => .error (.parse (parseErrMsg s))
      | .short =>
        match rustParseSigned (2 ^ 15) s with
        | some v => .ok (.short v, rest)
        | none => .error (.parse (parseErrMsg s))
      | .ushort =>
        match rustParseUnsigned (2 ^ 16) s with
        | some v => .ok (.ushort v, rest)
        | none => .error (.parse (parseErrMsg s))
      | .int =>
        match rustParseSigned (2 ^ 31) s with
        | some v => .ok (.int v, rest)
        | none => .error (.parse (parseErrMsg s))
      | .uint =>
        match rustParseUnsigned (2 ^ 32) s with
        | some v => .ok (.uint v, rest)
        | none => .error (.parse (parseErrMsg s))
      | .float =>
        match rustParseF32 s with
        | some v => .ok (.float v, rest)
        | none => .error (.parse (parseErrMsg s))
      | .double =>
        match rustParseF64 s with
        | some v => .ok (.double v, rest)
        | none => .error (.parse (parseErrMsg s))
    | .list _ st =>
      match rustParseUnsigned (2 ^ 64) s with
      | none => .error (.parse (parseErrMsg s))
      | some count =>
        match st with
        | .char =>
          match readAsciiList (rustParseSigned (2 ^ 7)) count rest with
          | .error e => .error e
          | .ok (vs, r) => .ok (.listChar vs, r)
        | .uchar =>
          match readAsciiList (rustParseUnsigned (2 ^ 8)) count rest with
          | .error e => .error e
          | .ok (vs, r) => .ok (.listUChar vs, r)
        | .short =>
          match readAsciiList (rustParseSigned (2 ^ 15)) count rest with
          | .error e => .error e
          | .ok (vs, r) => .ok (.listShort vs, r)
        | .ushort =>
          match readAsciiList (rustParseUnsigned (2 ^ 16)) count rest with
          | .error e => .error e
          | .ok (vs, r) => .ok (.listUShort vs, r)
        | .int =>
          match readAsciiList (rustParseSigned (2 ^ 31)) count rest with
          | .error e => .error e
          | .ok (vs, r) => .ok (.listInt vs, r)
        | .uint =>
          match readAsciiList (rustParseUnsigned (2 ^ 32)) count rest with
          | .error e => .error e
          | .ok (vs, r) => .ok (.listUInt vs, r)
        | .float =>
          match readAsciiList rustParseF32 count rest with
          | .error e => .error e
          | .ok (vs, r) => .ok (.listFloat vs, r)
        | .double =>
          match readAsciiList rustParseF64 count rest with
          | .error e => .error e
          | .ok (vs, r) => .ok (.listDouble vs, r)

/-- The per-property loop of `read_ascii_element`: properties in declared
order, tokens consumed left to right, values stored via `set_property`
under the map key. -/
def readAsciiElementLoop :
    List (String × PropertyDef) → List String → DefaultElement →
    Except PlyError DefaultElement
  | [], _, vals => .ok vals
  | (k, p) :: ps, toks, vals =>
    match readAsciiProperty toks p.dataType with
    | .error e => .error e
    | .ok (newP, toks') => readAsciiElementLoop ps toks' (vals.setProperty k newP)

/-- `read_ascii_element`: tokenize one line with the data-line grammar, then
decode each declared property in order. -/
def readAsciiElement (line : String) (elementDef : ElementDef) :
    Except PlyError DefaultElement :=
  match dataLine line with
  | none =>
    .error (.parse ("Couldn't parse element line.\n\tString: '" ++ line
      ++ "'\n\tError: ParseError"))
  | some elems => readAsciiElementLoop elementDef.properties elems DefaultElement.new

/-! ## Binary payload decoding (src/parser/mod.rs, `# Binary`)

The byte stream is a `List Nat` of bytes.  `byteorder`'s fixed-width reads
become `readUWord`; running out of bytes is the `UnexpectedEof` I/O error
`read_exact` produces ("failed to fill whole buffer").  Signed values are
the two's-complement reinterpretation of the unsigned word. -/

/-- Byte order, compile-time generic in the source (`BigEndian` /
`LittleEndian`). -/
inductive ByteOrder where
  | big | little
deriving DecidableEq, Repr

/-- `Display` of a `PlyError` (thiserror `#[error(...)]` patterns). -/
def PlyError.display : PlyError → String
  | .io _ m => "IO error: " ++ m
  | .parse m => "Parse error: " ++ m
  | .inconsistent m => "Inconsistent property: " ++ m
  | .serialize m => "Serialization error: " ++ m

/-- `derive(Debug)` of a `PlyError`, abbreviated (no claim depends on it). -/
def PlyError.debug : PlyError → String
  | .io _ m => "Io(\"" ++ m ++ "\")"
  | .parse m => "Parse(\"" ++ m ++ "\")"
  | .inconsistent m => "Inconsistent(\"" ++ m ++ "\")"
  | .serialize m => "Serialize(\"" ++ m ++ "\")"

/-- Read a `width`-byte unsigned word in the given byte order. -/
def readUWord (bo : ByteOrder) (width : Nat) (s : List Nat) :
    Except PlyError (Nat × List Nat) :=
  if s.length < width then .error (.io .unexpectedEof "failed to fill whole buffer")
  else
    let bs := (s.take width).map (· % 256)
    let bs := match bo with | .big => bs | .little => bs.reverse
    .ok (bs.foldl (fun a b => a * 256 + b) 0, s.drop width)

/-- Two's-complement reinterpretation of a `width`-byte unsigned word. -/
def toSigned (width : Nat) (u : Nat) : Int :=
  if u < 2 ^ (8 * width - 1) then (u : Int) else (u : Int) - 2 ^ (8 * width)

/-- `read_u8` (no byte order for a single byte). -/
def readU8 (s : List Nat) : Except PlyError (Nat × List Nat) :=
  readUWord .big 1 s

/-- `read_i8`. -/
def readI8 (s : List Nat) : Except PlyError (Int × List Nat) :=
  (readUWord .big 1 s).map fun (u, r) => (toSigned 1 u, r)

/-- `read_u16::<B>`. -/
def readU16 (bo : ByteOrder) (s : List Nat) : Except PlyError (Nat × List Nat) :=
  readUWord bo 2 s

/-- `read_i16::<B>`. -/
def readI16 (bo : ByteOrder) (s : List Nat) : Except PlyError (Int × List Nat) :=
  (readUWord bo 2 s).map fun (u, r) => (toSigned 2 u, r)

/-- `read_u32::<B>`. -/
def readU32 (bo : ByteOrder) (s : List Nat) : Except PlyError (Nat × List Nat) :=
  readUWord bo 4 s

/-- `read_i32::<B>`. -/
def readI32 (bo : ByteOrder) (s : List Nat) : Except PlyError (Int × List Nat) :=
  (readUWord bo 4 s).map fun (u, r) => (toSigned 4 u, r)

/-- `read_f32::<B>`: the 32-bit pattern, carried symbolically. -/
def readF32 (bo : ByteOrder) (s : List Nat) : Except PlyError (F32 × List Nat) :=
  (readUWord bo 4 s).map fun (u, r) => (F32.bits u, r)

/-- `read_f64::<B>`: the 64-bit pattern, carried symbolically. -/
def readF64 (bo : ByteOrder) (s : List Nat) : Except PlyError (F64 × List Nat) :=
  (readUWord bo 8 s).map fun (u, r) => (F64.bits u, r)

/-- `__read_binary_list`, generalized over the per-element reader; a reader
failure at index `i` is rewrapped as a parse error. -/
def readBinaryListAux {α : Type}
    (rd : List Nat → Except PlyError (α × List Nat)) :
    Nat → Nat → List Nat → Except PlyError (List α × List Nat)
  | 0, _, s => .ok ([], s)
  | rem + 1, i, s =>
    match rd s with
    | .error e =>
      .error (.parse ("Couldn't find a list element at index " ++ toString i
        ++ ".\n\tError: " ++ e.debug))
    | .ok (v, s') =>
      match readBinaryListAux rd rem (i + 1) s' with
      | .error e => .error e
      | .ok (vs, r) => .ok (v :: vs, r)

/-- `__read_binary_list`. -/
def readBinaryList {α : Type} (rd : List Nat → Except PlyError (α × List Nat))
    (count : Nat) (s : List Nat) : Except PlyError (List α × List Nat) :=
  readBinaryListAux rd count 0 s

/-- `__read_binary_property`: decode one property from the byte stream.  A
list first decodes its length using the declared index type: a float or
double index type is rejected outright, a negative signed count is rejected,
and the count is checked against `usize` (2^64 on the 64-bit host) before
elements are decoded. -/
def readBinaryProperty (bo : ByteOrder) (s : List Nat) (dataType : PropertyType) :
    Except PlyError (Property × List Nat) :=
  match dataType with
  | .scalar st =>
    match st with
    | .char => (readI8 s).map fun (v, r) => (.char v, r)
    | .uchar => (readU8 s).map fun (v, r) => (.uchar v, r)
    | .short => (readI16 bo s).map fun (v, r) => (.short v, r)
    | .ushort => (readU16 bo s).map fun (v, r) => (.ushort v, r)
    | .int => (readI32 bo s).map fun (v, r) => (.int v, r)
    | .uint => (readU32 bo s).map fun (v, r) => (.uint v, r)
    | .float => (readF32 bo s).map fun (v, r) => (.float v, r)
    | .double => (readF64 bo s).map fun (v, r) => (.double v, r)
  | .list indexType propertyType =>
    let countRes : Except PlyError (Nat × List Nat) :=
      match indexType with
      | .char =>
        match readI8 s with
        | .error e => .error e
        | .ok (v, r) =>
          if v < 0 then .error (.parse "List length cannot be negative (i8).")
          else if v.toNat < 2 ^ 64 then .ok (v.toNat, r)
          else .error (.io .invalidInput "List length does not fit into usize.")
      | .uchar => readU8 s
      | .short =>
        match readI16 bo s with
        | .error e => .error e
        | .ok (v, r) =>
          if v < 0 then .error (.parse "List length cannot be negative (i16).")
          else if v.toNat < 2 ^ 64 then .ok (v.toNat, r)
          else .error (.io .invalidInput "List length does not fit into usize.")
      | .ushort => readU16 bo s
      | .int =>
        match readI32 bo s with
        | .error e => .error e
        | .ok (v, r) =>
          if v < 0 then .error (.parse "List length cannot be negative (i32).")
          else if v.toNat < 2 ^ 64 then .ok (v.toNat, r)
          else .error (.io .invalidInput "List length does not fit into usize.")
      | .uint =>
        match readU32 bo s with
        | .error e => .error e
        | .ok (v, r) =>
          if v < 2 ^ 64 then .ok (v, r)
          else .error (.io .invalidInput "List length does not fit into usize.")
      | .float =>
        .error (.parse "Index of list must be an integer type, float declared in ScalarType.")
      | .double =>
        .error (.parse "Index of list must be an integer type, double declared in ScalarType.")
    match countRes with
    | .error e => .error e
    | .ok (count, r) =>
      match propertyType with
      | .char =>
        match readBinaryList readI8 count r with
        | .error e => .error e
        | .ok (vs, r') => .ok (.listChar vs, r')
      | .uchar =>
        match readBinaryList readU8 count r with
        | .error e => .error e
        | .ok (vs, r') => .ok (.listUChar vs, r')
      | .short =>
        match readBinaryList (readI16 bo) count r with
        | .error e => .error e
        | .ok (vs, r') => .ok (.listShort vs, r')
      | .ushort =>
        match readBinaryList (readU16 bo) count r with
        | .error e => .error e
        | .ok (vs, r') => .ok (.listUShort vs, r')
      | .int =>
        match readBinaryList (readI32 bo) count r with
        | .error e => .error e
        | .ok (vs, r') => .ok (.listInt vs, r')
      | .uint =>
        match readBinaryList (readU32 bo) count r with
        | .error e => .error e
        | .ok (vs, r') => .ok (.listUInt vs, r')
      | .float =>
        match readBinaryList (readF32 bo) count r with
        | .error e => .error e
        | .ok (vs, r') => .ok (.listFloat vs, r')
      | .double =>
        match readBinaryList (readF64 bo) count r with
        | .error e => .error e
        | .ok (vs, r') => .ok (.listDouble vs, r')

/-- The per-property loop of `__read_binary_element`. -/
def readBinaryElementLoop (bo : ByteOrder) :
    List (String × PropertyDef) → List Nat → DefaultElement →
    Except PlyError (DefaultElement × List Nat)
  | [], s, vals => .ok (vals, s)
  | (k, p) :: ps, s, vals =>
    match readBinaryProperty bo s p.dataType with
    | .error e => .error e
    | .ok (prop, s') => readBinaryElementLoop bo ps s' (vals.setProperty k prop)

/-- `__read_binary_element`. -/
def readBinaryElement (bo : ByteOrder) (s : List Nat) (elementDef : ElementDef) :
    Except PlyError (DefaultElement × List Nat) :=
  readBinaryElementLoop bo elementDef.properties s DefaultElement.new

/-- Replace the (unused-by-ASCII-decoding) list index type by a fixed one;
two property types are equal up to index type iff their images agree. -/
def PropertyType.stripIndex : PropertyType → PropertyType
  | .scalar t => .scalar t
  | .list _ t => .list .uchar t

/-! ## Header parsing (src/parser/mod.rs, `__read_header`)

The input is the list of line strings `BufRead::read_line` yields (an empty
list models an exhausted stream).  `LocationTracker` is the `loc` field:
created at 0, incremented before the magic line and after each loop
iteration.  The loop body is split out as `headerStep` so its behavior on a
single line is directly statable. -/

/-- `derive(Debug)` for `Encoding`. -/
def Encoding.debug : Encoding → String
  | .ascii => "Ascii"
  | .binaryBigEndian => "BinaryBigEndian"
  | .binaryLittleEndian => "BinaryLittleEndian"

/-- `derive(Debug)` for `Version`. -/
def Version.debug (v : Version) : String :=
  "Version \x7b major: " ++ toString v.major ++ ", minor: " ++ toString v.minor ++ " \x7d"

/-- `derive(Debug)` for `Option<Version>`. -/
def optVersionDebug : Option Version → String
  | none => "None"
  | some v => "Some(" ++ v.debug ++ ")"

/-- `derive(Debug)` for `Line` (element/property payloads abbreviated; used
only inside the magic-line mismatch message). -/
def Line.debug : Line → String
  | .magicNumber => "MagicNumber"
  | .format t => "Format((" ++ t.1.debug ++ ", " ++ optVersionDebug t.2 ++ "))"
  | .comment c => "Comment(\"" ++ c ++ "\")"
  | .objInfo o => "ObjInfo(\"" ++ o ++ "\")"
  | .element _ => "Element(..)"
  | .property p => "Property(" ++ p.debug ++ ")"
  | .endHeader => "EndHeader"

/-- `parse_ascii_error`'s message:
`"Line {}: {}\n\tString: '{}'"`. -/
def parseAsciiErrorMsg (loc : Nat) (lineStr msg : String) : String :=
  "Line " ++ toString loc ++ ": " ++ msg ++ "\n\tString: '" ++ lineStr ++ "'"

/-- `parse_ascii_rethrow`'s message:
`"Line {}: {}\n\tString: '{}'\n\tError: {:?}"`. -/
def parseAsciiRethrowMsg (loc : Nat) (lineStr msg errDebug : String) : String :=
  parseAsciiErrorMsg loc lineStr msg ++ "\n\tError: " ++ errDebug

/-- The contradicting-format message of `__read_header`. -/
def contradictingFormatMsg (t f : Encoding × Option Version) : String :=
  "Found contradicting format definition:\n\tEncoding: " ++ t.1.debug
    ++ ", Version: " ++ optVersionDebug t.2
    ++ "\nprevious definition:\n\tEncoding: " ++ f.1.debug
    ++ ", Version: " ++ optVersionDebug f.2

/-- The mutable locals of the `__read_header` loop plus the location
tracker. -/
structure HState where
  loc : Nat
  formVer : Option (Encoding × Option Version)
  objInfos : List String
  comments : List String
  elements : KeyMap ElementDef
deriving DecidableEq

/-- Outcome of one `__read_header` loop iteration. -/
inductive StepResult where
  | err (e : PlyError)
  | cont (st : HState)
  | done (st : HState)
deriving DecidableEq

/-- One iteration of the `__read_header` loop on one line.  The
property branch merges the `is_empty` test with `pop().unwrap()`: for the
list-backed map, `mapPop` is `none` exactly when the map is empty, so the
`unwrap` can never panic. -/
def headerStep (st : HState) (lineStr : String) : StepResult :=
  match parseLine lineStr with
  | none => .err (.parse (parseAsciiRethrowMsg st.loc lineStr "Couldn't parse line." "ParseError"))
  | some .magicNumber => .err (.parse (parseAsciiErrorMsg st.loc lineStr "Unexpected 'ply' found."))
  | some (.format t) =>
    match st.formVer with
    | some f =>
      if f ≠ t then
        .err (.parse (parseAsciiErrorMsg st.loc lineStr (contradictingFormatMsg t f)))
      else if f.2 = none then
        .err (.parse (parseAsciiErrorMsg st.loc lineStr "Invalid version"))
      else .cont st
    | none => .cont { st with formVer := some t }
  | some (.objInfo o) => .cont { st with objInfos := st.objInfos ++ [o] }
  | some (.comment c) => .cont { st with comments := st.comments ++ [c] }
  | some (.element e) =>
    match e with
    | some ed => .cont { st with elements := add st.elements ed }
    | none => .err (.parse (parseAsciiErrorMsg st.loc lineStr "Invalid element"))
  | some (.property p) =>
    match mapPop st.elements with
    | none =>
      .err (.parse (parseAsciiErrorMsg st.loc lineStr
        ("Property '" ++ p.debug ++ "' found without preceding element.")))
    | some ((_, e), rest) =>
      .cont { st with elements := add rest { e with properties := add e.properties p } }
  | some .endHeader => .done st

/-- The post-loop checks of `__read_header`: a recorded format line and a
parsed version are required; the remaining unread lines and the final
location are returned alongside the header. -/
def finalizeHeader (st : HState) (rest : List String) :
    Except PlyError (Header × Nat × List String) :=
  match st.formVer with
  | none => .error (.parse "No format line found.")
  | some (encoding, version) =>
    match version with
    | none => .error (.parse "Invalid version number.")
    | some version =>
      .ok ({ encoding := encoding, version := version, objInfos := st.objInfos,
             elements := st.elements, comments := st.comments }, st.loc, rest)

/-- The `'readlines` loop of `__read_header`: an exhausted stream is the
missing-`end_header` parse error. -/
def readHeaderLoop (st : HState) : List String → Except PlyError (Header × Nat × List String)
  | [] =>
    .error (.parse ("Line " ++ toString st.loc
      ++ ": Unexpected end of file while reading header (missing 'end_header')."))
  | l :: rest =>
    match headerStep st l with
    | .err e => .error e
    | .done st' => finalizeHeader { st' with loc := st'.loc + 1 } rest
    | .cont st' => readHeaderLoop { st' with loc := st'.loc + 1 } rest

/-- `__read_header`: magic line first (an empty stream is the I/O
unexpected-EOF error), then the loop. -/
def readHeaderLines : List String → Except PlyError (Header × Nat × List String)
  | [] => .error (.io .unexpectedEof "Unexpected end of file while reading magic number.")
  | l :: rest =>
    match parseLine l with
    | some .magicNumber =>
      readHeaderLoop { loc := 2, formVer := none, objInfos := [], comments := [], elements := [] } rest
    | some other =>
      .error (.parse (parseAsciiErrorMsg 1 l
        ("Expected magic number 'ply', but saw '" ++ other.debug ++ "'.")))
    | none =>
      .error (.parse (parseAsciiRethrowMsg 1 l "Expected magic number 'ply'." "ParseError"))

/-! ## Payload and `read_ply` (src/parser/mod.rs)

`read_ply` reads the header, then the payload for every element in header
order.  The payload region of the stream is the leftover line list for the
ASCII encoding and a byte list for the binary encodings. -/

/-- `__read_ascii_payload_for_element`: `count` rows, one line each. -/
def readAsciiPayloadForElementAux (ed : ElementDef) :
    Nat → Nat → Nat → List String → Except PlyError (List DefaultElement × Nat × List String)
  | 0, _, loc, lines => .ok ([], loc, lines)
  | rem + 1, i, loc, lines =>
    match lines with
    | [] =>
      .error (.io .unexpectedEof ("Line " ++ toString loc
        ++ ": Unexpected end of file while reading element '" ++ ed.name
        ++ "' (expected " ++ toString ed.count ++ ", got " ++ toString i ++ ")."))
    | l :: rest =>
      match readAsciiElement l ed with
      | .error e =>
        .error (.parse (parseAsciiRethrowMsg loc l "Couldn't read element line." e.debug))
      | .ok el =>
        match readAsciiPayloadForElementAux ed rem (i + 1) (loc + 1) rest with
        | .error e => .error e
        | .ok (els, loc', rest') => .ok (el :: els, loc', rest')

/-- `__read_binary_payload_for_element`: `count` back-to-back elements; an
unexpected-EOF failure is rewrapped to name the element and the row count
reached. -/
def readBinaryPayloadForElementAux (bo : ByteOrder) (ed : ElementDef) :
    Nat → Nat → Nat → List Nat → Except PlyError (List DefaultElement × Nat × List Nat)
  | 0, _, loc, s => .ok ([], loc, s)
  | rem + 1, i, loc, s =>
    match readBinaryElement bo s ed with
    | .error e =>
      match e with
      | .io .unexpectedEof m =>
        .error (.io .unexpectedEof ("Line " ++ toString loc
          ++ ": Unexpected end of file while reading binary element '" ++ ed.name
          ++ "' (expected " ++ toString ed.count ++ ", got " ++ toString i
          ++ ").\n\tError: " ++ PlyError.display (.io .unexpectedEof m)))
      | _ => .error e
    | .ok (el, s') =>
      match readBinaryPayloadForElementAux bo ed rem (i + 1) (loc + 1) s' with
      | .error e => .error e
      | .ok (els, loc', s'') => .ok (el :: els, loc', s'')

/-- The element loop of `__read_payload`, ASCII encoding. -/
def readPayloadAscii :
    Nat → List (String × ElementDef) → List String → KeyMap (List DefaultElement) →
    Except PlyError (KeyMap (List DefaultElement))
  | _, [], _, acc => .ok acc
  | loc, (k, ed) :: es, lines, acc =>
    match readAsciiPayloadForElementAux ed ed.count 0 loc lines with
    | .error e => .error e
    | .ok (els, loc', rest) => readPayloadAscii loc' es rest (mapInsert acc k els)

/-- The element loop of `__read_payload`, binary encodings
(`location.next_line()` runs once before each element's row loop). -/
def readPayloadBinary (bo : ByteOrder) :
    Nat → List (String × ElementDef) → List Nat → KeyMap (List DefaultElement) →
    Except PlyError (KeyMap (List DefaultElement))
  | _, [], _, acc => .ok acc
  | loc, (k, ed) :: es, s, acc =>
    match readBinaryPayloadForElementAux bo ed ed.count 0 (loc + 1) s with
    | .error e => .error e
    | .ok (els, loc', s') => readPayloadBinary bo loc' es s' (mapInsert acc k els)

/-- `Ply<DefaultElement>`. -/
structure Ply where
  header : Header
  payload : KeyMap (List DefaultElement)
deriving DecidableEq

/-- `read_ply`: header, then payload per the recorded encoding, continuing
with the same location tracker.  The ASCII payload reads the leftover
lines; a binary payload reads `bytes`. -/
def readPlyLines (ls : List String) (bytes : List Nat) : Except PlyError Ply :=
  match readHeaderLines ls with
  | .error e => .error e
  | .ok (h, loc, rest) =>
    match h.encoding with
    | .ascii =>
      match readPayloadAscii loc h.elements rest [] with
      | .error e => .error e
      | .ok payload => .ok ⟨h, payload⟩
    | .binaryBigEndian =>
      match readPayloadBinary .big loc h.elements bytes [] with
      | .error e => .error e
      | .ok payload => .ok ⟨h, payload⟩
    | .binaryLittleEndian =>
      match readPayloadBinary .little loc h.elements bytes [] with
      | .error e => .error e
      | .ok payload => .ok ⟨h, payload⟩

/-! ### Basic KeyMap lemmas (shared helpers) -/

theorem mapInsert_lookup {V : Type} (m : KeyMap V) (k : String) (v : V) :
    mapLookup (mapInsert m k v) k = some v := by
  induction m with
  | nil => simp [mapInsert, mapLookup]
  | cons hd tl ih =>
    obtain ⟨k', v'⟩ := hd
    by_cases h : k' = k
    · simp [mapInsert, mapLookup, h]
    · simp [mapInsert, mapLookup, h, ih]

theorem mapInsert_fresh {V : Type} (m : KeyMap V) (k : String) (v : V)
    (h : k ∉ KeyMap.keys m) : mapInsert m k v = m ++ [(k, v)] := by
  induction m with
  | nil => simp [mapInsert]
  | cons hd tl ih =>
    obtain ⟨k', v'⟩ := hd
    simp only [KeyMap.keys, List.map_cons, List.mem_cons, not_or] at h
    simp only [mapInsert]
    rw [if_neg (fun hh => h.1 hh.symm), ih h.2]
    simp

theorem mapInsert_overwrite {V : Type} (pre post : List (String × V))
    (k : String) (w v : V) (h : k ∉ KeyMap.keys pre) :
    mapInsert (pre ++ (k, w) :: post) k v = pre ++ (k, v) :: post := by
  induction pre with
  | nil => simp [mapInsert]
  | cons hd tl ih =>
    obtain ⟨k', v'⟩ := hd
    simp only [KeyMap.keys, List.map_cons, List.mem_cons, not_or] at h
    simp only [List.cons_append, mapInsert]
    rw [if_neg (fun hh => h.1 hh.symm)]
    show (k', v') :: mapInsert (tl ++ (k, w) :: post) k v = _
    rw [ih h.2]

/-! ### ASCII decoding: claims C5 and C8 -/

/-- C5: The ASCII data row `"  -7\t   5  \r\n"` decoded against declared
properties `int x`, `uint y` yields `Int(-7)` and `UInt(5)`; the internal
tab/space mixture and the CRLF terminator do not affect the result. -/
theorem ascii_row_mixed_whitespace :
    readAsciiElement "  -7\t   5  \r\n"
        ⟨"point", 2, [("x", ⟨"x", .scalar .int⟩), ("y", ⟨"y", .scalar .uint⟩)]⟩
      = .ok [("x", Property.int (-7)), ("y", Property.uint 5)] := by decide

/-- `__read_ascii_property` never consults the list index type, except in the
debug rendering inside the tokens-exhausted error message; so up to error
messages (tracked by category) the results agree. -/
theorem readAsciiProperty_stripIndex (toks : List String) :
    ∀ {dt1 dt2 : PropertyType}, dt1.stripIndex = dt2.stripIndex →
    Except.mapError PlyError.category (readAsciiProperty toks dt1)
      = Except.mapError PlyError.category (readAsciiProperty toks dt2) := by
  intro dt1 dt2 h
  cases dt1 with
  | scalar t =>
    cases dt2 with
    | scalar t' =>
      simp only [PropertyType.stripIndex, PropertyType.scalar.injEq] at h
      subst h; rfl
    | list i' t' => simp [PropertyType.stripIndex] at h
  | list i t =>
    cases dt2 with
    | scalar t' => simp [PropertyType.stripIndex] at h
    | list i' t' =>
      simp only [PropertyType.stripIndex, PropertyType.list.injEq, true_and] at h
      subst h
      cases toks <;> rfl

/-- The per-property loop inherits index-type independence. -/
theorem readAsciiElementLoop_stripIndex :
    ∀ (ps1 ps2 : List (String × PropertyDef)) (toks : List String) (vals : DefaultElement),
    ps1.map (fun e => (e.1, e.2.dataType.stripIndex))
      = ps2.map (fun e => (e.1, e.2.dataType.stripIndex)) →
    Except.mapError PlyError.category (readAsciiElementLoop ps1 toks vals)
      = Except.mapError PlyError.category (readAsciiElementLoop ps2 toks vals) := by
  intro ps1
  induction ps1 with
  | nil =>
    intro ps2 toks vals h
    cases ps2 with
    | nil => rfl
    | cons hd2 tl2 => simp at h
  | cons hd tl ih =>
    intro ps2 toks vals h
    cases ps2 with
    | nil => simp at h
    | cons hd2 tl2 =>
      obtain ⟨k1, p1⟩ := hd
      obtain ⟨k2, p2⟩ := hd2
      simp only [List.map_cons, List.cons.injEq, Prod.mk.injEq] at h
      obtain ⟨⟨hk, hdt⟩, htl⟩ := h
      subst hk
      have hp := readAsciiProperty_stripIndex toks hdt
      simp only [readAsciiElementLoop]
      cases h1 : readAsciiProperty toks p1.dataType with
      | error e1 =>
        cases h2 : readAsciiProperty toks p2.dataType with
        | error e2 =>
          rw [h1, h2] at hp
          simpa [Except.mapError] using hp
        | ok v2 =>
          rw [h1, h2] at hp
          simp [Except.mapError] at hp
      | ok v1 =>
        cases h2 : readAsciiProperty toks p2.dataType with
        | error e2 =>
          rw [h1, h2] at hp
          simp [Except.mapError] at hp
        | ok v2 =>
          rw [h1, h2] at hp
          simp only [Except.mapError] at hp
          injection hp with hv
          subst hv
          exact ih tl2 v1.2 _ htl

/-- C8 (amended): ASCII payload decoding of a list property never consults
the declared list index type for the decode itself: for element definitions
whose properties agree up to list index types, `read_ascii_element` yields
the same outcome — identical success values (a float- or double-indexed list
decodes without error, its count taken solely from the leading token), and
on failure errors of the same category; the one index-type dependence is the
debug rendering of the declared type inside the tokens-exhausted error
message. -/
theorem ascii_ignores_list_index (line : String) (ed1 ed2 : ElementDef)
    (h : ed1.properties.map (fun e => (e.1, e.2.dataType.stripIndex))
       = ed2.properties.map (fun e => (e.1, e.2.dataType.stripIndex))) :
    Except.mapError PlyError.category (readAsciiElement line ed1)
      = Except.mapError PlyError.category (readAsciiElement line ed2) := by
  unfold readAsciiElement
  cases hdl : dataLine line with
  | none => rfl
  | some elems => exact readAsciiElementLoop_stripIndex _ _ elems DefaultElement.new h

/-- Counterexample to C8 as stated: with no tokens on the line, the
tokens-exhausted error message prints the declared type including its index
type, so the two results are not equal. -/
theorem ascii_ignores_list_index_ce :
    readAsciiElement "" ⟨"e", 1, [("l", ⟨"l", .list .float .int⟩)]⟩
      ≠ readAsciiElement "" ⟨"e", 1, [("l", ⟨"l", .list .uchar .int⟩)]⟩ := by decide

/-- Witness for C8 (amended): a float-indexed and a uchar-indexed int list
have the same outcome, and the float-indexed one decodes without error. -/
theorem ascii_ignores_list_index_witness :
    Except.mapError PlyError.category
        (readAsciiElement "3 1 2 3" ⟨"e", 1, [("l", ⟨"l", .list .float .int⟩)]⟩)
      = Except.mapError PlyError.category
        (readAsciiElement "3 1 2 3" ⟨"e", 1, [("l", ⟨"l", .list .uchar .int⟩)]⟩) ∧
    readAsciiElement "3 1 2 3" ⟨"e", 1, [("l", ⟨"l", .list .float .int⟩)]⟩
      = .ok [("l", Property.listInt [1, 2, 3])] :=
  ⟨ascii_ignores_list_index "3 1 2 3" _ _ (by decide), by decide⟩

/-! ### Binary decoding: claims C1 and C2 -/

/-- C1: For every binary decode (either byte order) of a list property whose
declared index type is a signed integer kind (char, short or int), a negative
decoded length value makes `__read_binary_property` fail with the
negative-length parse error: the value is never wrapped to a large unsigned
count and no list elements are decoded from it. -/
theorem binary_negative_list_length (bo : ByteOrder) (s rest : List Nat)
    (t : ScalarType) (v : Int) (hneg : v < 0) :
    (readI8 s = .ok (v, rest) →
      readBinaryProperty bo s (.list .char t)
        = .error (.parse "List length cannot be negative (i8).")) ∧
    (readI16 bo s = .ok (v, rest) →
      readBinaryProperty bo s (.list .short t)
        = .error (.parse "List length cannot be negative (i16).")) ∧
    (readI32 bo s = .ok (v, rest) →
      readBinaryProperty bo s (.list .int t)
        = .error (.parse "List length cannot be negative (i32).")) := by
  refine ⟨fun h => ?_, fun h => ?_, fun h => ?_⟩ <;>
    simp [readBinaryProperty, h, hneg]

/-- Witness for C1: index type char, single byte `0xFF` decodes to `-1`
and the decode fails with the negative-length error. -/
theorem binary_negative_list_length_witness :
    readI8 [255] = .ok (-1, []) ∧ (-1 : Int) < 0 ∧
    readBinaryProperty .big [255] (.list .char .uchar)
      = .error (.parse "List length cannot be negative (i8).") :=
  ⟨by decide, by decide,
    (binary_negative_list_length .big [255] [] .uchar (-1) (by decide)).1 (by decide)⟩

/-- C2: A binary list property whose declared index type is Float or Double
is rejected outright by `__read_binary_property`, for every byte stream,
byte order and element type. -/
theorem binary_float_index_rejected (bo : ByteOrder) (s : List Nat) (t : ScalarType) :
    readBinaryProperty bo s (.list .float t)
      = .error (.parse "Index of list must be an integer type, float declared in ScalarType.") ∧
    readBinaryProperty bo s (.list .double t)
      = .error (.parse "Index of list must be an integer type, double declared in ScalarType.") :=
  ⟨rfl, rfl⟩

/-! ### Claims C9 and C10 -/

/-- C9: For the ordered name-keyed map, `add(v)` always stores `v` under
`v`'s own name (so the map key and the stored value's name field never
diverge); adding a value whose name is already present overwrites the stored
value while preserving that entry's original iteration position; for fresh
names the new entry is appended, so iteration order is insertion order. -/
theorem addable_add_spec {V : Type} [Key V] (m : KeyMap V) (v : V) :
    mapLookup (add m v) (Key.getKey v) = some v ∧
    (Key.getKey v ∉ KeyMap.keys m → add m v = m ++ [(Key.getKey v, v)]) ∧
    (∀ pre post w, m = pre ++ (Key.getKey v, w) :: post →
      Key.getKey v ∉ KeyMap.keys pre →
      add m v = pre ++ (Key.getKey v, v) :: post) := by
  refine ⟨mapInsert_lookup m _ v, fun h => mapInsert_fresh m _ v h, ?_⟩
  intro pre post w hm hpre
  rw [add, hm]
  exact mapInsert_overwrite pre post _ w v hpre

/-- Witness for C9: concrete overwrite (position preserved) and concrete
fresh-name append. -/
theorem addable_add_spec_witness :
    (add [("a", PropertyDef.mk "a" (.scalar .char)), ("b", PropertyDef.mk "b" (.scalar .int))]
        (PropertyDef.mk "a" (.scalar .float))
      = [("a", PropertyDef.mk "a" (.scalar .float)), ("b", PropertyDef.mk "b" (.scalar .int))]) ∧
    (add [("a", PropertyDef.mk "a" (.scalar .char))] (PropertyDef.mk "c" (.scalar .uint))
      = [("a", PropertyDef.mk "a" (.scalar .char)), ("c", PropertyDef.mk "c" (.scalar .uint))]) :=
  ⟨(addable_add_spec _ _).2.2 [] [("b", PropertyDef.mk "b" (.scalar .int))]
      (PropertyDef.mk "a" (.scalar .char)) rfl (by decide),
   (addable_add_spec _ _).2.1 (by decide)⟩

/-- C10: For `DefaultElement`, after `set_property(n, v)` the getter matching
`v`'s variant applied to `n` returns exactly the stored value (bit-for-bit
for float/double, which are carried symbolically), and every getter of a
non-matching variant returns `none`: no panic, no coercion. -/
theorem default_element_set_get (m : DefaultElement) (n : String) (v : Property) :
    DefaultElement.getChar (DefaultElement.setProperty m n v) n
      = (match v with | .char x => some x | _ => none) ∧
    DefaultElement.getUChar (DefaultElement.setProperty m n v) n
      = (match v with | .uchar x => some x | _ => none) ∧
    DefaultElement.getShort (DefaultElement.setProperty m n v) n
      = (match v with | .short x => some x | _ => none) ∧
    DefaultElement.getUShort (DefaultElement.setProperty m n v) n
      = (match v with | .ushort x => some x | _ => none) ∧
    DefaultElement.getInt (DefaultElement.setProperty m n v) n
      = (match v with | .int x => some x | _ => none) ∧
    DefaultElement.getUInt (DefaultElement.setProperty m n v) n
      = (match v with | .uint x => some x | _ => none) ∧
    DefaultElement.getFloat (DefaultElement.setProperty m n v) n
      = (match v with | .float x => some x | _ => none) ∧
    DefaultElement.getDouble (DefaultElement.setProperty m n v) n
      = (match v with | .double x => some x | _ => none) ∧
    DefaultElement.getListChar (DefaultElement.setProperty m n v) n
      = (match v with | .listChar x => some x | _ => none) ∧
    DefaultElement.getListUChar (DefaultElement.setProperty m n v) n
      = (match v with | .listUChar x => some x | _ => none) ∧
    DefaultElement.getListShort (DefaultElement.setProperty m n v) n
      = (match v with | .listShort x => some x | _ => none) ∧
    DefaultElement.getListUShort (DefaultElement.setProperty m n v) n
      = (match v with | .listUShort x => some x | _ => none) ∧
    DefaultElement.getListInt (DefaultElement.setProperty m n v) n
      = (match v with | .listInt x => some x | _ => none) ∧
    DefaultElement.getListUInt (DefaultElement.setProperty m n v) n
      = (match v with | .listUInt x => some x | _ => none) ∧
    DefaultElement.getListFloat (DefaultElement.setProperty m n v) n
      = (match v with | .listFloat x => some x | _ => none) ∧
    DefaultElement.getListDouble (DefaultElement.setProperty m n v) n
      = (match v with | .listDouble x => some x | _ => none) := by
  have hl := mapInsert_lookup m n v
  cases v <;>
    simp [DefaultElement.setProperty, DefaultElement.getChar, DefaultElement.getUChar,
      DefaultElement.getShort, DefaultElement.getUShort, DefaultElement.getInt,
      DefaultElement.getUInt, DefaultElement.getFloat, DefaultElement.getDouble,
      DefaultElement.getListChar, DefaultElement.getListUChar, DefaultElement.getListShort,
      DefaultElement.getListUShort, DefaultElement.getListInt, DefaultElement.getListUInt,
      DefaultElement.getListFloat, DefaultElement.getListDouble, hl]

/-! ### Header parsing: claims C3, C4, C6 and C7 -/

/-- A loop step yields `done` only on an `end_header` line. -/
theorem headerStep_done_eq (st : HState) (l : String) (st' : HState)
    (h : headerStep st l = .done st') : parseLine l = some Line.endHeader := by
  unfold headerStep at h
  cases hp : parseLine l <;> rw [hp] at h <;> (try simp only [] at h)
  · exact absurd h (by simp)
  case some ln =>
    cases ln with
    | magicNumber => simp at h
    | format t =>
      cases hf : st.formVer <;> rw [hf] at h <;> (try simp only [] at h)
      · simp at h
      case some f =>
        by_cases hft : f = t
        · rw [if_neg (not_not_intro hft)] at h
          by_cases hv : f.2 = none
          · rw [if_pos hv] at h; simp at h
          · rw [if_neg hv] at h; simp at h
        · rw [if_pos hft] at h; simp at h
    | comment c => simp at h
    | objInfo o => simp at h
    | element e => cases e <;> simp at h
    | property p =>
      cases hpop : mapPop st.elements with
      | none => rw [hpop] at h; simp at h
      | some val =>
        obtain ⟨⟨k, e⟩, rest⟩ := val
        rw [hpop] at h; simp at h
    | endHeader => rfl

/-- A continuing loop step never overwrites an already-recorded format pair,
and records the pair of the format line it just consumed. -/
theorem headerStep_cont_formVer (st st' : HState) (l : String)
    (h : headerStep st l = .cont st') :
    (∀ f, st.formVer = some f → st'.formVer = some f) ∧
    (∀ t, parseLine l = some (.format t) → st'.formVer = some t) := by
  unfold headerStep at h
  cases hp : parseLine l <;> rw [hp] at h <;> (try simp only [] at h)
  · simp at h
  case some ln =>
    cases ln with
    | magicNumber => simp at h
    | format t =>
      cases hf : st.formVer <;> rw [hf] at h <;> (try simp only [] at h)
      · injection h with h'
        subst h'
        refine ⟨fun f hff => ?_, fun t' hpt => ?_⟩
        · simp at hff
        · injection hpt with h1
          injection h1 with h2
          subst h2
          rfl
      case some f =>
        by_cases hft : f = t
        · rw [if_neg (not_not_intro hft)] at h
          by_cases hv : f.2 = none
          · rw [if_pos hv] at h; simp at h
          · rw [if_neg hv] at h
            injection h with h'
            subst h'
            refine ⟨fun f' hff => by rw [hf]; exact hff, fun t' hpt => ?_⟩
            injection hpt with h3
            injection h3 with h4
            subst h4
            rw [hf, hft]
        · rw [if_pos hft] at h; simp at h
    | comment c =>
      injection h with h'
      subst h'
      exact ⟨fun f hff => hff, fun t' hpt => by cases hpt⟩
    | objInfo o =>
      injection h with h'
      subst h'
      exact ⟨fun f hff => hff, fun t' hpt => by cases hpt⟩
    | element e =>
      cases e with
      | none => simp at h
      | some ed =>
        injection h with h'
        subst h'
        exact ⟨fun f hff => hff, fun t' hpt => by cases hpt⟩
    | property p =>
      cases hpop : mapPop st.elements with
      | none => rw [hpop] at h; simp at h
      | some val =>
        obtain ⟨⟨k, e⟩, rest⟩ := val
        rw [hpop] at h
        (try simp only [] at h)
        injection h with h'
        subst h'
        exact ⟨fun f hff => hff, fun t' hpt => by cases hpt⟩
    | endHeader => simp at h

/-- With a format pair already recorded, reaching (before any `end_header`)
a format line carrying a different pair makes the loop fail. -/
theorem readHeaderLoop_conflict :
    ∀ (ls : List String) (st : HState) (f t2 : Encoding × Option Version) (j : Nat) (lj : String),
    st.formVer = some f →
    ls.get? j = some lj → parseLine lj = some (.format t2) → t2 ≠ f →
    (∀ lk ∈ ls.take j, parseLine lk ≠ some Line.endHeader) →
    ∃ e, readHeaderLoop st ls = .error e := by
  intro ls
  induction ls with
  | nil =>
    intro st f t2 j lj _ hget
    simp at hget
  | cons l rest ih =>
    intro st f t2 j lj hfv hget hpj hne hno
    cases j with
    | zero =>
      simp at hget
      subst hget
      have hstep : headerStep st l
          = .err (.parse (parseAsciiErrorMsg st.loc l (contradictingFormatMsg t2 f))) := by
        unfold headerStep
        rw [hpj]
        simp only []
        rw [hfv]
        simp only []
        rw [if_pos (Ne.symm hne)]
      exact ⟨_, by rw [readHeaderLoop, hstep]⟩
    | succ j' =>
      have hl : l ∈ (l :: rest).take (j' + 1) := by
        rw [List.take_succ_cons]; exact List.mem_cons_self l _
      cases hstep : headerStep st l with
      | err e => exact ⟨e, by rw [readHeaderLoop, hstep]⟩
      | done st2 => exact absurd (headerStep_done_eq st l st2 hstep) (hno l hl)
      | cont st2 =>
        have hfv2 : ({ st2 with loc := st2.loc + 1 } : HState).formVer = some f :=
          (headerStep_cont_formVer st st2 l hstep).1 f hfv
        obtain ⟨e, he⟩ := ih { st2 with loc := st2.loc + 1 } f t2 j' lj hfv2
          (by simpa using hget) hpj hne
          (fun lk hm => hno lk (by rw [List.take_succ_cons]; exact List.mem_cons_of_mem l hm))
        exact ⟨e, by rw [readHeaderLoop, hstep]; exact he⟩

/-- From any loop state, a line list containing two format lines with
different pairs before any `end_header` makes the loop fail. -/
theorem readHeaderLoop_two_formats :
    ∀ (ls : List String) (st : HState) (i j : Nat) (li lj : String)
      (t1 t2 : Encoding × Option Version),
    i < j → ls.get? i = some li → parseLine li = some (.format t1) →
    ls.get? j = some lj → parseLine lj = some (.format t2) → t1 ≠ t2 →
    (∀ lk ∈ ls.take j, parseLine lk ≠ some Line.endHeader) →
    ∃ e, readHeaderLoop st ls = .error e := by
  intro ls
  induction ls with
  | nil =>
    intro st i j li lj t1 t2 _ hgeti
    simp at hgeti
  | cons l rest ih =>
    intro st i j li lj t1 t2 hij hgeti hpi hgetj hpj hne hno
    cases hfv : st.formVer with
    | some f =>
      by_cases hf1 : t1 = f
      · exact readHeaderLoop_conflict (l :: rest) st f t2 j lj hfv hgetj hpj
          (fun hh => hne (hh ▸ hf1)) hno
      · obtain ⟨j', rfl⟩ : ∃ j', j = j' + 1 := ⟨j - 1, by omega⟩
        exact readHeaderLoop_conflict (l :: rest) st f t1 i li hfv hgeti hpi hf1
          (fun lk hm => hno lk
            ((List.take_isPrefix_take.mpr (Or.inl (by omega : i ≤ j' + 1))).subset hm))
    | none =>
      cases i with
      | zero =>
        simp at hgeti
        subst hgeti
        obtain ⟨j', rfl⟩ : ∃ j', j = j' + 1 := ⟨j - 1, by omega⟩
        cases hstep : headerStep st l with
        | err e => exact ⟨e, by rw [readHeaderLoop, hstep]⟩
        | done st2 =>
          exact absurd (headerStep_done_eq st l st2 hstep)
            (hno l (by rw [List.take_succ_cons]; exact List.mem_cons_self l _))
        | cont st2 =>
          have hfv2 : ({ st2 with loc := st2.loc + 1 } : HState).formVer = some t1 :=
            (headerStep_cont_formVer st st2 l hstep).2 t1 hpi
          obtain ⟨e, he⟩ := readHeaderLoop_conflict rest { st2 with loc := st2.loc + 1 }
            t1 t2 j' lj hfv2 (by simpa using hgetj) hpj (Ne.symm hne)
            (fun lk hm => hno lk (by rw [List.take_succ_cons]; exact List.mem_cons_of_mem l hm))
          exact ⟨e, by rw [readHeaderLoop, hstep]; exact he⟩
      | succ i' =>
        obtain ⟨j', rfl⟩ : ∃ j', j = j' + 1 := ⟨j - 1, by omega⟩
        cases hstep : headerStep st l with
        | err e => exact ⟨e, by rw [readHeaderLoop, hstep]⟩
        | done st2 =>
          exact absurd (headerStep_done_eq st l st2 hstep)
            (hno l (by rw [List.take_succ_cons]; exact List.mem_cons_self l _))
        | cont st2 =>
          obtain ⟨e, he⟩ := ih { st2 with loc := st2.loc + 1 } i' j' li lj t1 t2
            (by omega) (by simpa using hgeti) hpi (by simpa using hgetj) hpj hne
            (fun lk hm => hno lk (by rw [List.take_succ_cons]; exact List.mem_cons_of_mem l hm))
          exact ⟨e, by rw [readHeaderLoop, hstep]; exact he⟩

/-- An unparsable first line fails with the magic-number rethrow error. -/
theorem readHeaderLines_noparse (l0 : String) (rest : List String)
    (hp0 : parseLine l0 = none) :
    readHeaderLines (l0 :: rest)
      = .error (.parse (parseAsciiRethrowMsg 1 l0 "Expected magic number 'ply'." "ParseError")) := by
  unfold readHeaderLines
  simp only []
  rw [hp0]

/-- A first line that parses as something other than `ply` fails. -/
theorem readHeaderLines_nonmagic (l0 : String) (rest : List String) (ln : Line)
    (hp0 : parseLine l0 = some ln) (hnm : ln ≠ .magicNumber) :
    readHeaderLines (l0 :: rest)
      = .error (.parse (parseAsciiErrorMsg 1 l0
          ("Expected magic number 'ply', but saw '" ++ ln.debug ++ "'."))) := by
  unfold readHeaderLines
  simp only []
  rw [hp0]
  cases ln <;> first | exact absurd rfl hnm | rfl

/-- After the magic line, `__read_header` runs the loop from the empty state. -/
theorem readHeaderLines_magic (l0 : String) (rest : List String)
    (hp0 : parseLine l0 = some .magicNumber) :
    readHeaderLines (l0 :: rest)
      = readHeaderLoop ⟨2, none, [], [], []⟩ rest := by
  unfold readHeaderLines
  simp only []
  rw [hp0]

/-- `read_ply` propagates a header failure untouched: no payload is read. -/
theorem readPlyLines_error (ls : List String) (bytes : List Nat) (e : PlyError)
    (h : readHeaderLines ls = .error e) : readPlyLines ls bytes = .error e := by
  unfold readPlyLines
  rw [h]

/-- C3: For every input whose header contains two `format` lines with
differing (encoding, version) pairs — before any `end_header` — `read_header`
returns an error, and `read_ply` returns that same error whatever the payload
holds, i.e. before any payload is read; moreover a later `format` line whose
recorded version failed to parse is likewise a fatal error (second
conjunct). -/
theorem header_conflicting_formats :
    (∀ (ls : List String) (bytes : List Nat) (i j : Nat) (li lj : String)
       (t1 t2 : Encoding × Option Version),
      i < j → ls.get? i = some li → parseLine li = some (.format t1) →
      ls.get? j = some lj → parseLine lj = some (.format t2) → t1 ≠ t2 →
      (∀ lk ∈ ls.take j, parseLine lk ≠ some Line.endHeader) →
      ∃ e, readHeaderLines ls = .error e ∧ readPlyLines ls bytes = .error e) ∧
    (∀ (st : HState) (l : String) (enc : Encoding) (fv : Encoding × Option Version),
      parseLine l = some (.format (enc, none)) → st.formVer = some fv →
      ∃ m, headerStep st l = .err (.parse m)) := by
  constructor
  · intro ls bytes i j li lj t1 t2 hij hgeti hpi hgetj hpj hne hno
    cases ls with
    | nil => simp at hgeti
    | cons l0 rest =>
      cases hp0 : parseLine l0 with
      | none =>
        exact ⟨_, readHeaderLines_noparse l0 rest hp0,
          readPlyLines_error _ bytes _ (readHeaderLines_noparse l0 rest hp0)⟩
      | some ln =>
        cases hmag : decide (ln = Line.magicNumber) with
        | false =>
          have hnm : ln ≠ Line.magicNumber := of_decide_eq_false hmag
          exact ⟨_, readHeaderLines_nonmagic l0 rest ln hp0 hnm,
            readPlyLines_error _ bytes _ (readHeaderLines_nonmagic l0 rest ln hp0 hnm)⟩
        | true =>
          have hm : ln = Line.magicNumber := of_decide_eq_true hmag
          subst hm
          obtain ⟨i', rfl⟩ : ∃ i', i = i' + 1 := by
            cases i with
            | zero =>
              simp at hgeti
              subst hgeti
              rw [hp0] at hpi
              cases hpi
            | succ i' => exact ⟨i', rfl⟩
          obtain ⟨j', rfl⟩ : ∃ j', j = j' + 1 := ⟨j - 1, by omega⟩
          obtain ⟨e, he⟩ := readHeaderLoop_two_formats rest ⟨2, none, [], [], []⟩ i' j' li lj
            t1 t2 (by omega) (by simpa using hgeti) hpi (by simpa using hgetj) hpj hne
            (fun lk hm => hno lk (by rw [List.take_succ_cons]; exact List.mem_cons_of_mem l0 hm))
          have hh : readHeaderLines (l0 :: rest) = .error e :=
            (readHeaderLines_magic l0 rest hp0).trans he
          exact ⟨e, hh, readPlyLines_error _ bytes _ hh⟩
  · intro st l enc fv hp hfv
    unfold headerStep
    rw [hp]
    simp only []
    rw [hfv]
    simp only []
    by_cases hft : fv = (enc, none)
    · rw [if_neg (not_not_intro hft), if_pos (by rw [hft])]
      exact ⟨_, rfl⟩
    · rw [if_pos hft]
      exact ⟨_, rfl⟩

theorem header_conflicting_formats_witness :
    (∃ e, readHeaderLines
        ["ply", "format ascii 1.0", "format binary_big_endian 1.0", "end_header"]
        = .error e ∧
      readPlyLines
        ["ply", "format ascii 1.0", "format binary_big_endian 1.0", "end_header"] []
        = .error e) ∧
    (∃ m, headerStep ⟨5, some (.ascii, some ⟨1, 0⟩), [], [], []⟩
        "format ascii 1.99999999999999999999999999999999999999999999"
        = .err (.parse m)) :=
  ⟨header_conflicting_formats.1 _ [] 1 2 "format ascii 1.0" "format binary_big_endian 1.0"
      (.ascii, some ⟨1, 0⟩) (.binaryBigEndian, some ⟨1, 0⟩)
      (by decide) (by decide) (by decide) (by decide) (by decide) (by decide) (by decide),
   header_conflicting_formats.2 _ _ .ascii (.ascii, some ⟨1, 0⟩) (by decide) rfl⟩

/-- `pop` removes exactly the last entry. -/
theorem mapPop_concat {V : Type} (init : KeyMap V) (k : String) (v : V) :
    mapPop (init ++ [(k, v)]) = some ((k, v), init) := by
  simp [KeyMap.mapPop]

/-- C4 (amended): During header parsing, a `property` line with no element
declared yet fails with the property-without-preceding-element error;
otherwise the property is appended to the property list of the element LAST
IN THE MAP'S ITERATION ORDER — the most recently declared element only when
its name was not re-declared — which is popped and re-added under its own
name, leaving all other elements and the element order unchanged (last
conjunct: with the parser's invariant that the last key matches its value's
name and is fresh in the rest, the map is unchanged except that the last
element gained the property). -/
theorem header_property_step (st : HState) (l : String) (p : PropertyDef)
    (hp : parseLine l = some (.property p)) :
    (st.elements = [] →
      headerStep st l = .err (.parse (parseAsciiErrorMsg st.loc l
        ("Property '" ++ p.debug ++ "' found without preceding element.")))) ∧
    (∀ init k e, st.elements = init ++ [(k, e)] →
      headerStep st l = .cont { st with
        elements := add init { e with properties := add e.properties p } }) ∧
    (∀ init e, st.elements = init ++ [(e.name, e)] → e.name ∉ KeyMap.keys init →
      headerStep st l = .cont { st with
        elements := init ++ [(e.name, { e with properties := add e.properties p })] }) := by
  refine ⟨fun h => ?_, fun init k e h => ?_, fun init e h hfresh => ?_⟩
  · unfold headerStep
    rw [hp]
    simp only []
    rw [h]
    rfl
  · unfold headerStep
    rw [hp]
    simp only []
    rw [h, mapPop_concat]
  · unfold headerStep
    rw [hp]
    simp only []
    rw [h, mapPop_concat]
    simp only []
    have : add init { e with properties := add e.properties p }
        = init ++ [(e.name, { e with properties := add e.properties p })] :=
      mapInsert_fresh init e.name _ hfresh
    rw [this]

/-- Witness for C4 (amended): concrete error case and concrete append to
the staged element. -/
theorem header_property_step_witness :
    (headerStep ⟨3, some (.ascii, some ⟨1, 0⟩), [], [], []⟩ "property int x"
      = .err (.parse (parseAsciiErrorMsg 3 "property int x"
          ("Property '" ++ PropertyDef.debug ⟨"x", .scalar .int⟩
            ++ "' found without preceding element.")))) ∧
    (headerStep ⟨4, some (.ascii, some ⟨1, 0⟩), [], [], [("a", ⟨"a", 1, []⟩)]⟩ "property int x"
      = .cont ⟨4, some (.ascii, some ⟨1, 0⟩), [], [],
          [("a", ⟨"a", 1, [("x", ⟨"x", .scalar .int⟩)]⟩)]⟩) :=
  ⟨(header_property_step _ _ ⟨"x", .scalar .int⟩ (by decide)).1 rfl,
   (header_property_step _ _ ⟨"x", .scalar .int⟩ (by decide)).2.2 [] ⟨"a", 1, []⟩ rfl
     (by decide)⟩

/-- Counterexample to C4 as stated: after `element a`, `element b`,
`element a` (re-declaration), the most recently declared element is `a`, yet
`property int x` is attached to `b`; `a`'s property list stays empty. -/
theorem header_property_step_ce :
    readHeaderLines
        ["ply", "format ascii 1.0", "element a 1", "element b 1", "element a 2",
         "property int x", "end_header"]
      = .ok ({ encoding := .ascii,
               version := ⟨1, 0⟩,
               objInfos := [],
               elements := [("a", ⟨"a", 2, []⟩),
                 ("b", ⟨"b", 1, [("x", ⟨"x", .scalar .int⟩)]⟩)],
               comments := [] }, 8, []) := by decide

/-- C6 (amended): A `format` line whose version overflows its target —
major not representable in 16 bits or minor not in 8 bits — still parses
successfully, as a format line whose version is recorded as absent (first
conjunct, at the `version` rule); `read_header` then rejects a header whose
only format line carries an absent version with the invalid-version error
(second conjunct). -/
theorem version_overflow :
    (∀ (cs cs1 cs2 rest mds nds : List Char),
      pDigits cs = some (mds, cs1) → pLit ".".data cs1 = some cs2 →
      pDigits cs2 = some (nds, rest) →
      2 ^ 16 ≤ digitsToNat mds ∨ 2 ^ 8 ≤ digitsToNat nds →
      pVersion cs = some (none, rest)) ∧
    (∀ (l : String) (enc : Encoding),
      parseLine l = some (.format (enc, none)) →
      readHeaderLines ["ply", l, "end_header"]
        = .error (.parse "Invalid version number.")) := by
  constructor
  · intro cs cs1 cs2 rest mds nds h1 h2 h3 hover
    unfold pVersion
    have h2' : pLit ['.'] cs1 = some cs2 := h2
    rw [h1]
    simp only [Option.bind_eq_bind, Option.some_bind]
    rw [h2']
    simp only [Option.bind_eq_bind, Option.some_bind]
    rw [h3]
    simp only [Option.bind_eq_bind, Option.some_bind, Option.some.injEq, Prod.mk.injEq]
    refine ⟨?_, trivial⟩
    rcases hover with hover | hover
    · split_ifs <;> simp_all
    · split_ifs <;> simp_all
  · intro l enc hp
    have h0 : parseLine "ply" = some Line.magicNumber := by decide
    rw [readHeaderLines_magic "ply" [l, "end_header"] h0]
    have hstep : headerStep ⟨2, none, [], [], []⟩ l
        = .cont ⟨2, some (enc, none), [], [], []⟩ := by
      unfold headerStep
      rw [hp]
    have hpe : parseLine "end_header" = some Line.endHeader := by decide
    have hstep2 : headerStep ⟨3, some (enc, none), [], [], []⟩ "end_header"
        = .done ⟨3, some (enc, none), [], [], []⟩ := by
      unfold headerStep
      rw [hpe]
    simp only [readHeaderLoop, hstep, hstep2]
    rfl

/-- Counterexample to C6 as stated: minor `999` overflows 8 bits, yet the
line parses successfully to a format line (with an absent version) rather
than being rejected. -/
theorem version_overflow_ce :
    parseLine "format ascii 1.999" = some (.format (.ascii, none)) := by decide

/-- Witness for C6 (amended): `1.999` yields an absent version at the
grammar level and an invalid-version header error. -/
theorem version_overflow_witness :
    pVersion "1.999".data = some (none, []) ∧
    readHeaderLines ["ply", "format ascii 1.999", "end_header"]
      = .error (.parse "Invalid version number.") :=
  ⟨version_overflow.1 "1.999".data ".999".data "999".data [] "1".data "999".data
      (by decide) (by decide) (by decide) (by decide),
   version_overflow.2 "format ascii 1.999" .ascii (by decide)⟩

/-- C7 (amended): If the input ends before `end_header`, `read_header`
fails: on a completely empty input the failure is the unexpected-EOF I/O
error from the magic-line read; once past the magic line, exhausting the
input fails with the missing-`end_header` PARSE error (not an I/O error). -/
theorem header_eof :
    readHeaderLines []
      = .error (.io .unexpectedEof "Unexpected end of file while reading magic number.") ∧
    (∀ st : HState, readHeaderLoop st []
      = .error (.parse ("Line " ++ toString st.loc
        ++ ": Unexpected end of file while reading header (missing 'end_header')."))) :=
  ⟨rfl, fun _ => rfl⟩

/-- Counterexample to C7 as stated: for the proper header prefix
`["ply"]`, the failure is in the Parse category, not the I/O category the
claim requires. -/
theorem header_eof_ce :
    readHeaderLines ["ply"]
      = .error (.parse
          "Line 2: Unexpected end of file while reading header (missing 'end_header').") := by
  decide

end PlyRs
